import Mathlib

/-!
Shallow embedding of the tenbagger fundamentals/scoring engine
(`lib/fetchers.ts`, `lib/scoring.ts`) and proofs about it.

Modelling conventions, used throughout:

* JavaScript numbers that may be the `NaN`/`undefined` "unknown" sentinel are
  modelled as `Option ℚ` (`none` = not finite / absent); finite arithmetic is
  exact rational arithmetic.
* A `dayjs` moment is modelled at the granularity the code uses it:
  `Instant` carries the calendar-quarter index `qidx = 4*year + (quarter-1)`
  plus the position `sub` inside that quarter, ordered lexicographically.
  `year()`, `quarter()`, `endOf("quarter")` and `subtract(1,"quarter")` act on
  `qidx` only.  The calendar label string `"{year}Q{quarter}"` of a valid date
  is in bijection with `qidx`, so label-keyed maps are keyed by `qidx : ℤ`.
* A JavaScript `Map` / plain object is an insertion-ordered association list:
  `get` is first match, `set` replaces the first match in place or appends.
* Fallible async code is modelled with `Except`; a thrown `ProviderError`
  becomes an `Except.error` value.
-/

/-- First-match lookup, the behaviour of JavaScript `Map.get` /
object property access on an insertion-ordered association list. -/
def aGet {κ α : Type} [DecidableEq κ] (m : List (κ × α)) (k : κ) : Option α :=
  match m with
  | [] => none
  | (k', v) :: rest => if k' = k then some v else aGet rest k

/-- JavaScript `Map.set`: replace the first occurrence of the key in place,
or append a fresh entry at the end. -/
def aSet {κ α : Type} [DecidableEq κ] (m : List (κ × α)) (k : κ) (v : α) :
    List (κ × α) :=
  match m with
  | [] => [(k, v)]
  | (k', v') :: rest => if k' = k then (k, v) :: rest else (k', v') :: aSet rest k v

theorem aGet_aSet_self {κ α : Type} [DecidableEq κ]
    (m : List (κ × α)) (k : κ) (v : α) : aGet (aSet m k v) k = some v := by
  induction m with
  | nil => simp [aGet, aSet]
  | cons hd tl ih =>
    obtain ⟨k', v'⟩ := hd
    by_cases h : k' = k <;> simp [aGet, aSet, h, ih]

theorem aGet_aSet_ne {κ α : Type} [DecidableEq κ]
    (m : List (κ × α)) (k k' : κ) (v : α) (h : k ≠ k') :
    aGet (aSet m k v) k' = aGet m k' := by
  induction m with
  | nil => simp [aGet, aSet, h]
  | cons hd tl ih =>
    obtain ⟨k0, v0⟩ := hd
    by_cases h0 : k0 = k
    · subst h0
      simp [aGet, aSet, h]
    · simp only [aSet, if_neg h0]
      by_cases h1 : k0 = k' <;> simp [aGet, h1, ih]

theorem aSet_aSet {κ α : Type} [DecidableEq κ]
    (m : List (κ × α)) (k : κ) (v w : α) : aSet (aSet m k v) k w = aSet m k w := by
  induction m with
  | nil => simp [aSet]
  | cons hd tl ih =>
    obtain ⟨k0, v0⟩ := hd
    by_cases h0 : k0 = k <;> simp [aSet, h0, ih]

theorem aGet_append {κ α : Type} [DecidableEq κ]
    (m : List (κ × α)) (k k' : κ) (v : α) :
    aGet (m ++ [(k, v)]) k' = (aGet m k').orElse (fun _ => if k = k' then some v else none) := by
  induction m with
  | nil => simp [aGet]
  | cons hd tl ih =>
    obtain ⟨k0, v0⟩ := hd
    by_cases h0 : k0 = k' <;> simp [aGet, h0, ih, Option.orElse]

/-- A `dayjs` moment, at the resolution the scoring code observes it:
the calendar-quarter index `qidx = 4 * year + (quarter - 1)` and the
position `sub` of the instant inside that calendar quarter.  Instants are
ordered lexicographically, matching `valueOf()` order. -/
structure Instant where
  qidx : ℤ
  sub : ℕ
deriving DecidableEq, Repr

/-- Strict `isAfter` comparison of two instants (`a.isAfter b` = `b < a`). -/
def Instant.lt (a b : Instant) : Bool :=
  a.qidx < b.qidx ∨ (a.qidx = b.qidx ∧ a.sub < b.sub)

/-- Non-strict comparison of two instants. -/
def Instant.le (a b : Instant) : Bool :=
  a.qidx < b.qidx ∨ (a.qidx = b.qidx ∧ a.sub ≤ b.sub)

/-- Calendar year of an instant (`dayjs(..).year()`). -/
def Instant.year (a : Instant) : ℤ := a.qidx.fdiv 4

/-- Calendar quarter 1..4 of an instant (`dayjs(..).quarter()`). -/
def Instant.quarter (a : Instant) : ℤ := a.qidx % 4 + 1

/-- One quarter's reported fundamentals (`Quarter` in `lib/types.ts`).
Numeric fields use `none` for the `NaN`/`undefined` unknown sentinel. -/
structure Quarter where
  period : Instant
  revenue : Option ℚ
  grossProfit : Option ℚ
  sga : Option ℚ
  rnd : Option ℚ
  ocf : Option ℚ
  capex : Option ℚ
  inventory : Option ℚ
  receivables : Option ℚ
  cash : Option ℚ
  totalDebt : Option ℚ
  dilutedShares : Option ℚ
  ebitda : Option ℚ
  netIncome : Option ℚ
  fiscalYear : Option ℤ
  fiscalQuarter : Option ℤ
deriving DecidableEq, Repr

/-- `Fundamentals` in `lib/types.ts`: ticker, market cap (may be the unknown
sentinel) and the quarters list, most recent first. -/
structure Fundamentals where
  ticker : String
  marketCap : Option ℚ
  quarters : List Quarter
deriving DecidableEq, Repr

/-- Split-detection step of `normalizeShares`: the multiplicative correction
contributed by one consecutive pair (previous raw value `p`, current raw
value `r`), mirroring the two ratio-band checks of the source. -/
def shareStep (prev : Option ℚ) (r : ℚ) : ℚ :=
  match prev with
  | none => 1
  | some p =>
    if 0 < p then
      let ratio := p / r
      if 4.5 < ratio ∧ ratio < 11.5 then ratio
      else if 0.08 < ratio ∧ ratio < 0.22 then ratio
      else 1
    else 1

/-- Loop of `normalizeShares` (`lib/scoring.ts`): walks the series carrying the
accumulated correction `factor` and the previous valid raw value. -/
def normalizeSharesGo (factor : ℚ) (prevRaw : Option ℚ) :
    List (Option ℚ) → List (Option ℚ)
  | [] => []
  | raw :: rest =>
    match raw with
    | none => none :: normalizeSharesGo factor none rest
    | some r =>
      if 0 < r then
        let factor' := factor * shareStep prevRaw r
        some (r * factor') :: normalizeSharesGo factor' (some r) rest
      else none :: normalizeSharesGo factor none rest

/-- `normalizeShares` from `lib/scoring.ts`: split-adjusts a diluted-share
series (newest first), accumulating a correction factor whenever the ratio of
consecutive valid values falls in (4.5, 11.5) or (0.08, 0.22). -/
def normalizeShares (series : List (Option ℚ)) : List (Option ℚ) :=
  normalizeSharesGo 1 none series

/-- Filter a raw series entry to a finite, strictly positive value. -/
def posVal (raw : Option ℚ) : Option ℚ :=
  match raw with
  | some v => if 0 < v then some v else none
  | none => none

/-- Value of a series entry as the loop sees it: `some v` when the entry is a
finite, strictly positive number, else `none`. -/
def rawAt (s : List (Option ℚ)) (i : ℕ) : Option ℚ :=
  posVal (s[i]?).join

/-- Correction ratio triggered between positions `j-1` and `j` of the series,
relative to an initial previous-value `p` for position 0. -/
def ratioFrom (p : Option ℚ) (s : List (Option ℚ)) : ℕ → ℚ
  | 0 =>
    match rawAt s 0 with
    | some c => shareStep p c
    | none => 1
  | j + 1 =>
    match rawAt s j, rawAt s (j + 1) with
    | some pv, some c => shareStep (some pv) c
    | _, _ => 1

/-- Accumulated correction factor at position `i`, relative to an initial
previous-value `p`: the product of all ratios triggered up to `i`. -/
def accFactorFrom (p : Option ℚ) (s : List (Option ℚ)) (i : ℕ) : ℚ :=
  ∏ j ∈ Finset.range (i + 1), ratioFrom p s j

/-- Accumulated split-correction factor at position `i` of a share series. -/
def accFactor (s : List (Option ℚ)) (i : ℕ) : ℚ := accFactorFrom none s i

theorem rawAt_cons_succ (x : Option ℚ) (s : List (Option ℚ)) (t : ℕ) :
    rawAt (x :: s) (t + 1) = rawAt s t := by
  simp [rawAt]

theorem rawAt_cons_zero (x : Option ℚ) (s : List (Option ℚ)) :
    rawAt (x :: s) 0 = posVal x := by
  simp [rawAt]

theorem ratioFrom_cons (p : Option ℚ) (raw : Option ℚ) (rest : List (Option ℚ))
    (t : ℕ) : ratioFrom p (raw :: rest) (t + 1) = ratioFrom (posVal raw) rest t := by
  cases t with
  | zero =>
    simp only [ratioFrom, rawAt_cons_succ, rawAt_cons_zero]
    cases hp : posVal raw with
    | none => cases hr : rawAt rest 0 <;> simp [shareStep]
    | some pv => cases hr : rawAt rest 0 <;> simp
  | succ u =>
    simp only [ratioFrom, rawAt_cons_succ]

theorem accFactorFrom_zero (p : Option ℚ) (s : List (Option ℚ)) :
    accFactorFrom p s 0 = ratioFrom p s 0 := by
  simp [accFactorFrom]

theorem accFactorFrom_cons (p : Option ℚ) (raw : Option ℚ)
    (rest : List (Option ℚ)) (j : ℕ) :
    accFactorFrom p (raw :: rest) (j + 1) =
      ratioFrom p (raw :: rest) 0 * accFactorFrom (posVal raw) rest j := by
  unfold accFactorFrom
  rw [Finset.prod_range_succ', mul_comm]
  congr 1
  exact Finset.prod_congr rfl (fun t _ => ratioFrom_cons p raw rest t)

theorem normalizeSharesGo_getElem (s : List (Option ℚ)) :
    ∀ (f : ℚ) (p : Option ℚ) (i : ℕ),
    (normalizeSharesGo f p s)[i]? =
      (s[i]?).map (fun raw => (posVal raw).map (fun v => v * (f * accFactorFrom p s i))) := by
  induction s with
  | nil => intro f p i; simp [normalizeSharesGo]
  | cons raw rest ih =>
    intro f p i
    cases i with
    | zero =>
      rw [accFactorFrom_zero]
      cases raw with
      | none => simp [normalizeSharesGo, posVal]
      | some r =>
        by_cases hr : 0 < r
        · have hpv : posVal (some r) = some r := by simp [posVal, hr]
          have hratio : ratioFrom p (some r :: rest) 0 = shareStep p r := by
            simp [ratioFrom, rawAt_cons_zero, hpv]
          simp [normalizeSharesGo, hr, hpv, hratio]
        · have hpv : posVal (some r) = none := by simp [posVal, hr]
          simp [normalizeSharesGo, hr, hpv]
    | succ j =>
      cases raw with
      | none =>
        have hrat : ratioFrom p (none :: rest) 0 = 1 := by
          simp [ratioFrom, rawAt_cons_zero, posVal]
        have hF : f * accFactorFrom p (none :: rest) (j + 1) =
            f * accFactorFrom none rest j := by
          rw [accFactorFrom_cons, hrat]
          have : posVal (none : Option ℚ) = none := rfl
          rw [this, one_mul]
        simp only [normalizeSharesGo, List.getElem?_cons_succ, ih f none j, hF]
      | some r =>
        by_cases hr : 0 < r
        · have hpv : posVal (some r) = some r := by simp [posVal, hr]
          have hrat : ratioFrom p (some r :: rest) 0 = shareStep p r := by
            simp [ratioFrom, rawAt_cons_zero, hpv]
          have hF : (f * shareStep p r) * accFactorFrom (some r) rest j =
              f * accFactorFrom p (some r :: rest) (j + 1) := by
            rw [accFactorFrom_cons, hrat, hpv, mul_assoc]
          simp only [normalizeSharesGo, hr, if_pos, List.getElem?_cons_succ,
            ih (f * shareStep p r) (some r) j, hF]
        · have hpv : posVal (some r) = none := by simp [posVal, hr]
          have hrat : ratioFrom p (some r :: rest) 0 = 1 := by
            simp [ratioFrom, rawAt_cons_zero, hpv]
          have hF : f * accFactorFrom p (some r :: rest) (j + 1) =
              f * accFactorFrom none rest j := by
            rw [accFactorFrom_cons, hrat, hpv, one_mul]
          simp only [normalizeSharesGo]
          rw [if_neg hr]
          simp only [List.getElem?_cons_succ, ih f none j, hF]

/-- C5 (amended): walking the series newest-to-oldest, `normalizeShares`
multiplies a running correction factor by each consecutive older-to-newer
ratio that falls in (4.5, 11.5) or (0.08, 0.22) and applies the accumulated
factor to that value and all subsequent (older) values; on the series
[1000, 1000, 9500, 9600] the triggered factor is the exact ratio 1000/9500,
so the result is [1000, 1000, 1000, 19200/19 ≈ 1010.5] (not [.., 950, 960]). -/
theorem normalizeShares_spec :
    (∀ (s : List (Option ℚ)) (i : ℕ),
      (normalizeShares s)[i]? =
        (s[i]?).map (fun raw => (posVal raw).map (fun v => v * accFactor s i))) ∧
    normalizeShares [some 1000, some 1000, some 9500, some 9600] =
      [some 1000, some 1000, some 1000, some (19200 / 19)] := by
  constructor
  · intro s i
    have h := normalizeSharesGo_getElem s 1 none i
    simpa [normalizeShares, accFactor, one_mul] using h
  · show normalizeSharesGo 1 none _ = _
    norm_num [normalizeSharesGo, shareStep]

/-- C5 counterexample: on [1000, 1000, 9500, 9600] the code returns
[1000, 1000, 1000, 19200/19], whose last two entries differ from the claimed
approximate values 950 and 960 by more than 5 percent. -/
theorem normalizeShares_claimed_values_false :
    (normalizeShares [some 1000, some 1000, some 9500, some 9600])[2]? =
      some (some 1000) ∧
    (normalizeShares [some 1000, some 1000, some 9500, some 9600])[3]? =
      some (some (19200 / 19)) ∧
    ¬ (|(1000 : ℚ) - 950| ≤ 950 * 5 / 100) ∧
    ¬ (|(19200 / 19 : ℚ) - 960| ≤ 960 * 5 / 100) := by
  refine ⟨?_, ?_, by norm_num, by norm_num [abs_le]⟩
  · show (normalizeSharesGo 1 none _)[2]? = _
    norm_num [normalizeSharesGo, shareStep]
  · show (normalizeSharesGo 1 none _)[3]? = _
    norm_num [normalizeSharesGo, shareStep]

/-- One slot of the 16-quarter timeline built by `scoreCompany`:
the calendar-quarter label (as its quarter index), the quarter used to fill
the slot, and whether real data backs it. -/
structure TimelineEntry where
  label : ℤ
  quarter : Quarter
  hasData : Bool
deriving DecidableEq, Repr

/-- Qualitative rating buckets (the Chinese rating strings of the source,
in score order: ≥9, ≥7, ≥5, below). -/
inductive Rating where
  | excellent
  | good
  | average
  | belowProfile
deriving DecidableEq, Repr

/-- Rule 6 of `scoreCompany`: the multi-metric valuation record
(`rules["6_val_vs_growth"]`), keeping the numeric fields of the source. -/
structure ValuationRule where
  evToEbitda : Option ℚ
  evToFcf : Option ℚ
  peg : Option ℚ
  pe : Option ℚ
  netIncomeGrowth : Option ℚ
  ev : Option ℚ
  fcf_ttm : Option ℚ
  ebitda_ttm : Option ℚ
  pass : Option Bool
deriving DecidableEq, Repr

/-- Result of `scoreCompany` (presentation-only strings of the source, such
as summaries and formatted metrics, are not modelled). -/
structure ScoreResult where
  ticker : String
  timeline : List TimelineEntry
  pass1 : Option Bool
  pass2 : Option Bool
  pass3 : Option Bool
  pass4 : Option Bool
  pass5 : Option Bool
  rule6 : ValuationRule
  pass7 : Option Bool
  pass8 : Option Bool
  pass9 : Option Bool
  pass10 : Option Bool
  red_flags : List ℕ
  base_points : ℕ
  bonus_points : ℕ
  total_score : ℕ
  rating : Rating
  ps : Option ℚ
  cagr1y : Option ℚ
  dq_quarters : ℕ
  dq_has_diluted : Bool
  quarterly_revenue : List (ℤ × Option ℚ)
  cagr_latest : List ℤ
  cagr_previous : List ℤ
deriving DecidableEq, Repr

/-- `safeDiv` from `lib/scoring.ts`: division that returns 0 on a zero
denominator. -/
def safeDiv (a b : ℚ) : ℚ := if b = 0 then 0 else a / b

/-- `avgValid` from `lib/scoring.ts`: mean of the finite entries, or the
unknown sentinel when none are finite. -/
def avgValid (l : List (Option ℚ)) : Option ℚ :=
  let valid := l.filterMap id
  if valid.length = 0 then none else some (valid.sum / (valid.length : ℚ))

/-- Sum of the finite entries of a series (`sum` in the source treats
non-finite entries as 0). -/
def sumVals (l : List (Option ℚ)) : ℚ := (l.filterMap id).sum

/-- Indexing `arr[i]` on a series of possibly-unknown numbers: out-of-range
reads like unknown entries behave as the sentinel. -/
def oat (l : List (Option ℚ)) (i : ℕ) : Option ℚ := (l[i]?).join

/-- Whether every entry of the series is a finite number
(`arr.every(Number.isFinite)`). -/
def allFinite (l : List (Option ℚ)) : Bool := l.all Option.isSome

/-- Stable insertion of an element into a sorted list: on ties the inserted
element (earlier in the original list) stays first. -/
def insertSorted {α : Type} (le : α → α → Bool) (x : α) : List α → List α
  | [] => [x]
  | y :: ys => if le x y then x :: y :: ys else y :: insertSorted le x ys

/-- A stable sort by a boolean comparator, modelling `Array.prototype.sort`
(which is required to be stable; for a consistent comparator every stable
sort returns the same list). -/
def stableSort {α : Type} (le : α → α → Bool) (l : List α) : List α :=
  l.foldr (insertSorted le) []

/-- The sort at the top of `scoreCompany`: quarters ordered most recent
first by period timestamp (stable, like `Array.prototype.sort`). -/
def sortQuarters (qs : List Quarter) : List Quarter :=
  stableSort (fun a b => Instant.le b.period a.period) qs

/-- Quarters whose period is not after `today` (`usable` in the source). -/
def usableQuarters (today : Instant) (f : Fundamentals) : List Quarter :=
  (sortQuarters f.quarters).filter (fun q => ! Instant.lt today q.period)

/-- The quarter list the timeline is built from: the non-future quarters when
at least 4 of them exist, otherwise all quarters (`base` in the source). -/
def baseQuarters (today : Instant) (f : Fundamentals) : List Quarter :=
  if 4 ≤ (usableQuarters today f).length then usableQuarters today f
  else sortQuarters f.quarters

/-- Calendar-quarter index the timeline is anchored at:
`dayjs((base[0] ?? sorted[0])?.period ?? today).endOf("quarter")`. -/
def anchorQidx (today : Instant) (f : Fundamentals) : ℤ :=
  match (baseQuarters today f).head? with
  | some q => q.period.qidx
  | none =>
    match (sortQuarters f.quarters).head? with
    | some q => q.period.qidx
    | none => today.qidx

/-- The label map of `scoreCompany`: first-seen quarter per calendar label
(keyed by quarter index; `labelMap` in the source). -/
def buildLabelMap (base : List Quarter) : List (ℤ × Quarter) :=
  base.foldl
    (fun m record =>
      if (aGet m record.period.qidx).isSome then m
      else m ++ [(record.period.qidx, record)]) []

/-- Placeholder quarter synthesized for a timeline slot with no backing data:
every financial field is the unknown sentinel. -/
def placeholderQuarter (label : ℤ) : Quarter :=
  { period := ⟨label, 0⟩
    revenue := none, grossProfit := none, sga := none, rnd := none
    ocf := none, capex := none, inventory := none, receivables := none
    cash := none, totalDebt := none, dilutedShares := none
    ebitda := none, netIncome := none
    fiscalYear := some (Instant.year ⟨label, 0⟩)
    fiscalQuarter := some (Instant.quarter ⟨label, 0⟩) }

/-- A known quarter placed into a timeline slot: fiscal year/quarter default
to the cursor's calendar values when absent. -/
def fillQuarter (existing : Quarter) (label : ℤ) : Quarter :=
  { existing with
    fiscalYear := some (existing.fiscalYear.getD (Instant.year ⟨label, 0⟩))
    fiscalQuarter := some (existing.fiscalQuarter.getD (Instant.quarter ⟨label, 0⟩)) }

/-- One slot of the timeline: the first-seen matching quarter when the label
map has one, else a synthesized placeholder. -/
def timelineEntry (base : List Quarter) (label : ℤ) : TimelineEntry :=
  match aGet (buildLabelMap base) label with
  | some existing => ⟨label, fillQuarter existing label, true⟩
  | none => ⟨label, placeholderQuarter label, false⟩

/-- The 16-slot timeline of `scoreCompany`, walking backward from the
anchor quarter. -/
def buildTimeline (today : Instant) (f : Fundamentals) : List TimelineEntry :=
  (List.range 16).map
    (fun (i : ℕ) => timelineEntry (baseQuarters today f) (anchorQidx today f - (i : ℤ)))

/-- Valuation limit for EV/EBITDA (`VAL_EBITDA_LIMIT`). -/
def VAL_EBITDA_LIMIT : ℚ := 25

/-- Valuation limit for EV/FCF (`VAL_FCF_LIMIT`). -/
def VAL_FCF_LIMIT : ℚ := 35

/-- Valuation limit for PEG (`VAL_PEG_LIMIT`). -/
def VAL_PEG_LIMIT : ℚ := 2

/-- Rule-6 combination logic of `scoreCompany`: each computable ratio is
checked against its limit; the verdict is unknown unless at least two checks
are computable, else pass exactly when at least two computable checks pass. -/
def valuationVerdict (evToEbitda evToFcf peg : Option ℚ) : Option Bool :=
  let evEbitdaPass : Option Bool := evToEbitda.map (fun v => decide (v ≤ VAL_EBITDA_LIMIT))
  let evFcfPass : Option Bool := evToFcf.map (fun v => decide (v ≤ VAL_FCF_LIMIT))
  let pegPass : Option Bool := peg.map (fun v => decide (v ≤ VAL_PEG_LIMIT))
  let available := [evEbitdaPass, evFcfPass, pegPass].filterMap id
  if 2 ≤ available.length then some (decide (2 ≤ (available.filter id).length))
  else none


namespace Score

variable (today : Instant) (f : Fundamentals)

/-- `timelineQuarters`: the quarters of the 16-slot timeline. -/
def timelineQ : List Quarter := (buildTimeline today f).map (fun e => e.quarter)

/-- `latest4`: the most recent 4 timeline quarters. -/
def latest4 : List Quarter := (timelineQ today f).take 4

/-- `earlier4`: timeline quarters 5..8. -/
def earlier4 : List Quarter := ((timelineQ today f).drop 4).take 4

/-- `latest2`: the most recent 2 timeline quarters. -/
def latest2 : List Quarter := (latest4 today f).take 2

/-- `earlier2`: timeline quarters 3..4. -/
def earlier2 : List Quarter := ((latest4 today f).drop 2).take 2

/-- `revenueLatest`. -/
def revenueLatest : List (Option ℚ) := (latest4 today f).map (fun x => x.revenue)

/-- `revenueEarlier`. -/
def revenueEarlier : List (Option ℚ) := (earlier4 today f).map (fun x => x.revenue)

/-- `hasRevenueLatest`. -/
def hasRevenueLatest : Bool :=
  decide ((latest4 today f).length = 4) && allFinite (revenueLatest today f)

/-- `hasRevenueEarlier`. -/
def hasRevenueEarlier : Bool :=
  decide ((earlier4 today f).length = 4) && allFinite (revenueEarlier today f)

/-- `revL4`: trailing-4-quarter revenue. -/
def revL4 : Option ℚ :=
  if hasRevenueLatest today f then some (sumVals (revenueLatest today f)) else none

/-- `revP4`: prior-4-quarter revenue. -/
def revP4 : Option ℚ :=
  if hasRevenueEarlier today f then some (sumVals (revenueEarlier today f)) else none

/-- `hasCagrData`. -/
def hasCagrData : Bool :=
  hasRevenueLatest today f && hasRevenueEarlier today f &&
    (match revP4 today f with | some v => decide (0 < v) | none => false)

/-- `cagr1y`. -/
def cagr1y : Option ℚ :=
  if hasCagrData today f then
    some (safeDiv ((revL4 today f).getD 0) ((revP4 today f).getD 0) - 1)
  else none

/-- Gross margin of one quarter, as computed inline by the source
(finite gross profit and nonzero finite revenue, else unknown). -/
def margin (x : Quarter) : Option ℚ :=
  match x.grossProfit, x.revenue with
  | some g, some r => if r = 0 then none else some (safeDiv g r)
  | _, _ => none

/-- `gmLatest`. -/
def gmLatest : List (Option ℚ) := (latest4 today f).map margin

/-- `gmL4`. -/
def gmL4 : Option ℚ := avgValid (gmLatest today f)

/-- `gmQ`. -/
def gmQ : List (Option ℚ) := (timelineQ today f).map margin

/-- `gmBaseline`: average margin over quarters 2..4. -/
def gmBaseline : Option ℚ := avgValid (List.take 3 ((gmLatest today f).drop 1))

/-- `gmTrend`. -/
def gmTrend : Option Bool :=
  match oat (gmLatest today f) 0, gmBaseline today f with
  | some a, some b => some (decide (b < a))
  | _, _ => none

/-- `gmOkForCapex`. -/
def gmOkForCapex : Bool :=
  match gmL4 today f, gmBaseline today f, oat (gmQ today f) 0 with
  | some l4, some b, some q0 => decide ((0.45 : ℚ) ≤ l4) && decide (b ≤ q0)
  | _, _, _ => false

/-- `ocfValues`. -/
def ocfValues : List (Option ℚ) := (latest4 today f).map (fun x => x.ocf)

/-- `ocfNear`. -/
def ocfNear : List (Option ℚ) := (latest2 today f).map (fun x => x.ocf)

/-- `ocfPrev`. -/
def ocfPrev : List (Option ℚ) := (earlier2 today f).map (fun x => x.ocf)

/-- `hasOcfTotals`. -/
def hasOcfTotals : Bool :=
  decide ((latest4 today f).length = 4) && allFinite (ocfValues today f)

/-- `hasOcfTrend`. -/
def hasOcfTrend : Bool :=
  decide ((latest2 today f).length = 2) && decide ((earlier2 today f).length = 2) &&
    allFinite (ocfNear today f) && allFinite (ocfPrev today f)

/-- `ocfL4`. -/
def ocfL4 : Option ℚ :=
  if hasOcfTotals today f then some (sumVals (ocfValues today f)) else none

/-- `ocfN2`. -/
def ocfN2 : Option ℚ :=
  if hasOcfTrend today f then some (sumVals (ocfNear today f)) else none

/-- `ocfP2`. -/
def ocfP2 : Option ℚ :=
  if hasOcfTrend today f then some (sumVals (ocfPrev today f)) else none

/-- Operating-expense ratio of one quarter, as computed inline by the source. -/
def opexRatio (x : Quarter) : Option ℚ :=
  match x.revenue, x.sga, x.rnd with
  | some r, some s, some n => if r = 0 then none else some (safeDiv (s + n) r)
  | _, _, _ => none

/-- `opexNear`. -/
def opexNear : List (Option ℚ) := (latest2 today f).map opexRatio

/-- `opexPrev`. -/
def opexPrev : List (Option ℚ) := (earlier2 today f).map opexRatio

/-- `hasOpexData`. -/
def hasOpexData : Bool :=
  decide ((opexNear today f).length = 2) && decide ((opexPrev today f).length = 2) &&
    allFinite (opexNear today f) && allFinite (opexPrev today f)

/-- `opexN2`. -/
def opexN2 : Option ℚ :=
  if hasOpexData today f then avgValid (opexNear today f) else none

/-- `opexP2`. -/
def opexP2 : Option ℚ :=
  if hasOpexData today f then avgValid (opexPrev today f) else none

/-- `yoyRaw`: year-over-year revenue growth of the latest 4 quarters, each
against the quarter 4 slots earlier. -/
def yoyRaw : List (Option ℚ) :=
  (List.range 4).map (fun idx =>
    match (timelineQ today f)[idx]?, (timelineQ today f)[idx + 4]? with
    | some cur, some prev =>
      (match cur.revenue, prev.revenue with
       | some cr, some pr => if pr = 0 then none else some (safeDiv cr pr - 1)
       | _, _ => none)
    | _, _ => none)

/-- `yoyNear`. -/
def yoyNear : List (Option ℚ) := (yoyRaw today f).take 2

/-- `yoyPrev`. -/
def yoyPrev : List (Option ℚ) := ((yoyRaw today f).drop 2).take 2

/-- `hasYoyData`. -/
def hasYoyData : Bool :=
  decide ((yoyNear today f).length = 2) && decide ((yoyPrev today f).length = 2) &&
    allFinite (yoyNear today f) && allFinite (yoyPrev today f)

/-- `yoyN2`. -/
def yoyN2 : Option ℚ :=
  if hasYoyData today f then avgValid (yoyNear today f) else none

/-- `yoyP2`. -/
def yoyP2 : Option ℚ :=
  if hasYoyData today f then avgValid (yoyPrev today f) else none

/-- `yoyDelta`. -/
def yoyDelta : Option ℚ :=
  if hasYoyData today f then some ((yoyN2 today f).getD 0 - (yoyP2 today f).getD 0)
  else none

/-- `ps`: price-to-sales (unknown when the market cap is the sentinel). -/
def psRatio : Option ℚ :=
  match revL4 today f, f.marketCap with
  | some rv, some m =>
    if hasRevenueLatest today f && decide (0 < rv) then some (safeDiv m rv) else none
  | _, _ => none

/-- `latestCash`. -/
def latestCash : Option ℚ :=
  match (latest4 today f).head? with | some q => q.cash | none => none

/-- `latestDebt`. -/
def latestDebt : Option ℚ :=
  match (latest4 today f).head? with | some q => q.totalDebt | none => none

/-- `enterpriseValue`: market cap plus finite debt minus finite cash. -/
def enterpriseValue : Option ℚ :=
  f.marketCap.map (fun m => m + (latestDebt today f).getD 0 - (latestCash today f).getD 0)

/-- `ebitdaValues`. -/
def ebitdaValues : List (Option ℚ) := (latest4 today f).map (fun x => x.ebitda)

/-- `ebitdaValid`. -/
def ebitdaValid : List ℚ := (ebitdaValues today f).filterMap id

/-- `ebitdaL4`. -/
def ebitdaL4 : Option ℚ :=
  if (ebitdaValid today f).length ≠ 0 then some (ebitdaValid today f).sum else none

/-- `evToEbitda`. -/
def evToEbitda : Option ℚ :=
  match enterpriseValue today f, ebitdaL4 today f with
  | some ev, some eb => if 0 < eb then some (ev / eb) else none
  | _, _ => none

/-- `capexValues`. -/
def capexValues : List (Option ℚ) := (latest4 today f).map (fun x => x.capex)

/-- `capexBaseline`. -/
def capexBaseline : Option ℚ := avgValid (List.take 3 ((capexValues today f).drop 1))

/-- `capexTrend`. -/
def capexTrend : Option Bool :=
  match oat (capexValues today f) 0, capexBaseline today f with
  | some c, some b => some (decide (b < c))
  | _, _ => none

/-- `fcfValues`: per-quarter free cash flow (OCF − capex). -/
def fcfValues : List (Option ℚ) :=
  (List.range 4).map (fun idx =>
    match oat (ocfValues today f) idx, oat (capexValues today f) idx with
    | some o, some c => some (o - c)
    | _, _ => none)

/-- `fcfValid`. -/
def fcfValid : List ℚ := (fcfValues today f).filterMap id

/-- `hasFcfData`. -/
def hasFcfData : Bool := decide (3 ≤ (fcfValid today f).length)

/-- `fcfL4`. -/
def fcfL4 : Option ℚ :=
  if (fcfValid today f).length ≠ 0 then some (fcfValid today f).sum else none

/-- `fcfRevenueDenom`: revenue summed over quarters with computable FCF. -/
def fcfRevenueDenom : ℚ :=
  (List.range 4).foldl
    (fun acc idx =>
      match oat (fcfValues today f) idx, oat (revenueLatest today f) idx with
      | some _, some r => acc + r
      | _, _ => acc) 0

/-- `fcfCoverage`. -/
def fcfCoverage : Option ℚ :=
  if hasFcfData today f && decide (0 < fcfRevenueDenom today f) then
    match fcfL4 today f with
    | some v => some (v / fcfRevenueDenom today f)
    | none => none
  else none

/-- `revenueGrowing`. -/
def revenueGrowing : Bool :=
  match cagr1y today f with | some c => decide ((0.1 : ℚ) ≤ c) | none => false

/-- `fcfPass`: the rule-10 verdict. -/
def fcfPass : Option Bool :=
  if 2 ≤ (fcfValid today f).length then
    if revenueGrowing today f then (fcfL4 today f).map (fun v => decide (0 < v))
    else
      match fcfCoverage today f with
      | some cov =>
        some (decide (0 < (fcfL4 today f).getD 0) || decide ((0.05 : ℚ) ≤ cov))
      | none => (fcfL4 today f).map (fun v => decide (0 < v))
  else none

/-- `evToFcf`. -/
def evToFcf : Option ℚ :=
  match enterpriseValue today f, fcfL4 today f with
  | some ev, some v => if 0 < v then some (ev / v) else none
  | _, _ => none

/-- `rdRatios`. -/
def rdRatios : List (Option ℚ) :=
  (latest4 today f).map (fun x =>
    match x.revenue, x.rnd with
    | some r, some n => if r = 0 then none else some (safeDiv n r)
    | _, _ => none)

/-- `rdRate`. -/
def rdRate : Option ℚ := avgValid (rdRatios today f)

/-- `rawDilutedSeries`. -/
def rawDilutedSeries : List (Option ℚ) :=
  (timelineQ today f).map (fun x => x.dilutedShares)

/-- `normalizedDiluted`. -/
def normalizedDiluted : List (Option ℚ) := normalizeShares (rawDilutedSeries today f)

/-- `dilutedLatest`. -/
def dilutedLatest : List (Option ℚ) := (normalizedDiluted today f).take 4

/-- `dilutedPrev`. -/
def dilutedPrev : List (Option ℚ) := ((normalizedDiluted today f).drop 4).take 4

/-- `dilutedL4`. -/
def dilutedL4 : Option ℚ := avgValid (dilutedLatest today f)

/-- `dilutedP4`. -/
def dilutedP4 : Option ℚ := avgValid (dilutedPrev today f)

/-- `hasDilutionData`. -/
def hasDilutionData : Bool :=
  (dilutedL4 today f).isSome && (dilutedP4 today f).isSome &&
    decide (2 ≤ ((dilutedLatest today f).filterMap id).length) &&
    decide (2 ≤ ((dilutedPrev today f).filterMap id).length)

/-- `dilutionYoY`. -/
def dilutionYoY : Option ℚ :=
  if hasDilutionData today f && decide ((dilutedP4 today f).getD 0 ≠ 0) then
    some ((dilutedL4 today f).getD 0 / (dilutedP4 today f).getD 0 - 1)
  else none

/-- `netIncomeLatest`. -/
def netIncomeLatest : List (Option ℚ) := (latest4 today f).map (fun x => x.netIncome)

/-- `netIncomePrev`. -/
def netIncomePrev : List (Option ℚ) := (earlier4 today f).map (fun x => x.netIncome)

/-- `netIncomeL4`. -/
def netIncomeL4 : Option ℚ :=
  if ((netIncomeLatest today f).filterMap id).length ≠ 0 then
    some ((netIncomeLatest today f).filterMap id).sum
  else none

/-- `netIncomePrevL4`. -/
def netIncomePrevL4 : Option ℚ :=
  if ((netIncomePrev today f).filterMap id).length ≠ 0 then
    some ((netIncomePrev today f).filterMap id).sum
  else none

/-- `netIncomeGrowth`. -/
def netIncomeGrowth : Option ℚ :=
  match netIncomeL4 today f, netIncomePrevL4 today f with
  | some l, some p => if 0 < p then some (safeDiv l p - 1) else none
  | _, _ => none

/-- `pe`: trailing price-to-earnings. -/
def peTtm : Option ℚ :=
  match f.marketCap, netIncomeL4 today f with
  | some m, some l => if 0 < l then some (safeDiv m l) else none
  | _, _ => none

/-- `peg`. -/
def pegRatio : Option ℚ :=
  match peTtm today f, netIncomeGrowth today f with
  | some p, some g => if 0 < g then some (p / max g 0.05) else none
  | _, _ => none

/-- `valuationPass`: rule-6 verdict. -/
def valuationPass : Option Bool :=
  valuationVerdict (evToEbitda today f) (evToFcf today f) (pegRatio today f)

/-- Rule 1 verdict (revenue CAGR ≥ 30%). -/
def pass1 : Option Bool :=
  if hasCagrData today f then some (decide ((0.30 : ℚ) ≤ (cagr1y today f).getD 0))
  else none

/-- Rule 2 verdict (gross-margin level and trend). -/
def pass2 : Option Bool :=
  match gmL4 today f, gmTrend today f with
  | some g, some t => some (decide ((0.45 : ℚ) ≤ g) && t)
  | _, _ => none

/-- Rule 3 verdict (OCF quality). -/
def pass3 : Option Bool :=
  if hasOcfTotals today f && hasOcfTrend today f then
    some (decide (0 < (ocfL4 today f).getD 0) &&
      decide ((ocfP2 today f).getD 0 < (ocfN2 today f).getD 0))
  else none

/-- Rule 4 verdict (opex ratio declining). -/
def pass4 : Option Bool :=
  if hasOpexData today f then
    some (decide ((opexN2 today f).getD 0 < (opexP2 today f).getD 0))
  else none

/-- Rule 5 verdict (YoY acceleration). -/
def pass5 : Option Bool :=
  if hasYoyData today f then
    some ((decide ((0.5 : ℚ) < (yoyN2 today f).getD 0) &&
        decide ((0.5 : ℚ) < (yoyP2 today f).getD 0)) ||
      decide ((yoyP2 today f).getD 0 + 0.05 < (yoyN2 today f).getD 0))
  else none

/-- Rule 7 verdict (capacity expansion without margin loss). -/
def pass7 : Option Bool :=
  match capexTrend today f with
  | some t => if gmOkForCapex today f then some t else none
  | none => none

/-- Rule 8 verdict (R&D intensity ≥ 15%). -/
def pass8 : Option Bool := (rdRate today f).map (fun r => decide ((0.15 : ℚ) ≤ r))

/-- Rule 9 verdict (dilution < 10%). -/
def pass9 : Option Bool := (dilutionYoY today f).map (fun d => decide (d < (0.10 : ℚ)))

/-- Rule 10 verdict (free-cash-flow coverage). -/
def pass10 : Option Bool := fcfPass today f

/-- The ten rule verdicts, in rule order. -/
def passesList : List (Option Bool) :=
  [pass1 today f, pass2 today f, pass3 today f, pass4 today f, pass5 today f,
    valuationPass today f, pass7 today f, pass8 today f, pass9 today f,
    pass10 today f]

/-- `basePass`: number of rules whose verdict is pass. -/
def basePass : ℕ :=
  ((passesList today f).filter (fun p => decide (p = some true))).length

/-- Red flag 1: OCF TTM negative and weakening. -/
def flag1 : Bool :=
  match ocfL4 today f, ocfN2 today f, ocfP2 today f with
  | some a, some b, some c => decide (a < 0) && decide (b < c)
  | _, _, _ => false

/-- `arInvLatest`. -/
def arInvLatest : List (Option ℚ) :=
  (latest4 today f).map (fun x =>
    match x.receivables, x.inventory with
    | some a, some b => some (a + b)
    | _, _ => none)

/-- `arInvPrev`. -/
def arInvPrev : List (Option ℚ) :=
  (earlier4 today f).map (fun x =>
    match x.receivables, x.inventory with
    | some a, some b => some (a + b)
    | _, _ => none)

/-- `hasArInvData`. -/
def hasArInvData : Bool :=
  decide ((arInvLatest today f).length = 4) && decide ((arInvPrev today f).length = 4) &&
    allFinite (arInvLatest today f) && allFinite (arInvPrev today f) &&
    hasRevenueLatest today f && hasRevenueEarlier today f

/-- Red flag 2: receivables+inventory growing faster than revenue. -/
def flag2 : Bool :=
  hasArInvData today f &&
    (match revL4 today f, revP4 today f with
     | some rv, some pv =>
       decide (rv - pv < sumVals (arInvLatest today f) - sumVals (arInvPrev today f))
     | _, _ => false)

/-- `gmYoYDrop`: year-over-year gross-margin change of the latest quarter. -/
def gmYoYDrop : Option ℚ :=
  match (timelineQ today f)[0]?, (timelineQ today f)[4]? with
  | some q0, some q4 =>
    (match q0.grossProfit, q0.revenue, q4.grossProfit, q4.revenue with
     | some g0, some r0, some g4, some r4 =>
       if r0 = 0 ∨ r4 = 0 then none
       else some (safeDiv g0 r0 - safeDiv g4 r4)
     | _, _, _, _ => none)
  | _, _ => none

/-- Red flag 3: gross margin down at least 5 points year over year. -/
def flag3 : Bool :=
  match gmYoYDrop today f with
  | some d => decide (d ≤ -(0.05 : ℚ))
  | none => false

/-- Red flag 5: diluted shares up more than 10% year over year. -/
def flag5 : Bool :=
  match dilutionYoY today f with
  | some d => decide ((0.10 : ℚ) < d)
  | none => false

/-- The triggered red flags, by their number in the source comments. -/
def redFlags : List ℕ :=
  (if flag1 today f then [1] else []) ++ (if flag2 today f then [2] else []) ++
    (if flag3 today f then [3] else []) ++ (if flag5 today f then [5] else [])

/-- The qualitative rating from the total score. -/
def ratingOf (total : ℕ) : Rating :=
  if 9 ≤ total then .excellent
  else if 7 ≤ total then .good
  else if 5 ≤ total then .average
  else .belowProfile

end Score

/-- `scoreCompany` from `lib/scoring.ts`: timeline construction, derived
metrics, the ten tri-state rules, red flags, score and rating.  `today`
models the `dayjs()` clock reading; the stage values are the named
definitions of the `Score` namespace. -/
def scoreCompany (today : Instant) (f : Fundamentals) : ScoreResult :=
  { ticker := f.ticker
    timeline := buildTimeline today f
    pass1 := Score.pass1 today f
    pass2 := Score.pass2 today f
    pass3 := Score.pass3 today f
    pass4 := Score.pass4 today f
    pass5 := Score.pass5 today f
    rule6 :=
      { evToEbitda := Score.evToEbitda today f
        evToFcf := Score.evToFcf today f
        peg := Score.pegRatio today f
        pe := Score.peTtm today f
        netIncomeGrowth := Score.netIncomeGrowth today f
        ev := Score.enterpriseValue today f
        fcf_ttm := Score.fcfL4 today f
        ebitda_ttm := Score.ebitdaL4 today f
        pass := Score.valuationPass today f }
    pass7 := Score.pass7 today f
    pass8 := Score.pass8 today f
    pass9 := Score.pass9 today f
    pass10 := Score.pass10 today f
    red_flags := Score.redFlags today f
    base_points := Score.basePass today f
    bonus_points := 0
    total_score := Score.basePass today f
    rating := Score.ratingOf (Score.basePass today f)
    ps := Score.psRatio today f
    cagr1y := Score.cagr1y today f
    dq_quarters := (baseQuarters today f).length
    dq_has_diluted := (Score.dilutionYoY today f).isSome
    quarterly_revenue := ((buildTimeline today f).take 8).map
      (fun e => (e.label, e.quarter.revenue)) |>.reverse
    cagr_latest := ((buildTimeline today f).take 4).map (fun e => e.label)
    cagr_previous := (((buildTimeline today f).drop 4).take 4).map (fun e => e.label) }

/-- Number of computable checks among the three valuation ratios. -/
def computableChecks (a b c : Option ℚ) : ℕ :=
  (if a.isSome then 1 else 0) + (if b.isSome then 1 else 0) + (if c.isSome then 1 else 0)

/-- Number of valuation checks that are computable and within their limit. -/
def passingChecks (a b c : Option ℚ) : ℕ :=
  (if a.any (fun x => decide (x ≤ VAL_EBITDA_LIMIT)) then 1 else 0) +
    (if b.any (fun x => decide (x ≤ VAL_FCF_LIMIT)) then 1 else 0) +
    (if c.any (fun x => decide (x ≤ VAL_PEG_LIMIT)) then 1 else 0)

theorem valuationVerdict_available (p1 p2 p3 : Option Bool) :
    (if 2 ≤ ([p1, p2, p3].filterMap id).length then
      some (decide (2 ≤ (([p1, p2, p3].filterMap id).filter id).length))
    else none) =
    (if 2 ≤ ((if p1.isSome then 1 else 0) + (if p2.isSome then 1 else 0) +
        (if p3.isSome then 1 else 0) : ℕ) then
      some (decide (2 ≤ ((if p1.getD false then 1 else 0) +
        (if p2.getD false then 1 else 0) + (if p3.getD false then 1 else 0) : ℕ)))
    else none) := by
  revert p1 p2 p3
  decide

theorem valuationVerdict_eq (a b c : Option ℚ) :
    valuationVerdict a b c =
      if 2 ≤ computableChecks a b c then some (decide (2 ≤ passingChecks a b c))
      else none := by
  refine (valuationVerdict_available (a.map (fun v => decide (v ≤ VAL_EBITDA_LIMIT)))
    (b.map (fun v => decide (v ≤ VAL_FCF_LIMIT)))
    (c.map (fun v => decide (v ≤ VAL_PEG_LIMIT)))).trans ?_
  rcases a with _ | x <;> rcases b with _ | y <;> rcases c with _ | z <;>
    simp [computableChecks, passingChecks, Option.any]

/-- C1: `scoreCompany` is a total function, and on an input with zero
quarters — whatever the ticker, the clock, and the market cap, including the
unknown sentinel — it returns a fully-populated result with a 16-entry
timeline, `total_score = 0`, and every one of the ten rules unknown
(`pass = null`). -/
theorem scoreCompany_zero_quarters (t : String) (mc : Option ℚ) (today : Instant) :
    (scoreCompany today ⟨t, mc, []⟩).total_score = 0 ∧
    (scoreCompany today ⟨t, mc, []⟩).timeline.length = 16 ∧
    (scoreCompany today ⟨t, mc, []⟩).pass1 = none ∧
    (scoreCompany today ⟨t, mc, []⟩).pass2 = none ∧
    (scoreCompany today ⟨t, mc, []⟩).pass3 = none ∧
    (scoreCompany today ⟨t, mc, []⟩).pass4 = none ∧
    (scoreCompany today ⟨t, mc, []⟩).pass5 = none ∧
    (scoreCompany today ⟨t, mc, []⟩).rule6.pass = none ∧
    (scoreCompany today ⟨t, mc, []⟩).pass7 = none ∧
    (scoreCompany today ⟨t, mc, []⟩).pass8 = none ∧
    (scoreCompany today ⟨t, mc, []⟩).pass9 = none ∧
    (scoreCompany today ⟨t, mc, []⟩).pass10 = none := by
  rcases mc with _ | m <;>
    exact ⟨rfl, rfl, rfl, rfl, rfl, rfl, rfl, rfl, rfl, rfl, rfl, rfl⟩

/-- C7: rule 6 of `scoreCompany` combines its three stored valuation ratios
(EV/EBITDA ≤ 25, EV/FCF ≤ 35, PEG ≤ 2) through `valuationVerdict`; the
verdict is unknown exactly when fewer than 2 checks are computable, passes
exactly when at least 2 are computable and at least 2 pass, and at
EV/EBITDA = 20 (pass), EV/FCF = 40 (fail), PEG not computable, it fails. -/
theorem rule6_valuation (today : Instant) (f : Fundamentals) :
    ((scoreCompany today f).rule6.pass =
      valuationVerdict (scoreCompany today f).rule6.evToEbitda
        (scoreCompany today f).rule6.evToFcf (scoreCompany today f).rule6.peg) ∧
    (∀ a b c : Option ℚ,
      (valuationVerdict a b c = none ↔ computableChecks a b c < 2) ∧
      (valuationVerdict a b c = some true ↔
        2 ≤ computableChecks a b c ∧ 2 ≤ passingChecks a b c) ∧
      (valuationVerdict a b c = some false ↔
        2 ≤ computableChecks a b c ∧ passingChecks a b c < 2)) ∧
    valuationVerdict (some 20) (some 40) none = some false := by
  refine ⟨rfl, ?_, ?_⟩
  · intro a b c
    rw [valuationVerdict_eq]
    by_cases h : 2 ≤ computableChecks a b c
    · refine ⟨?_, ?_, ?_⟩
      all_goals simp [h]
    · refine ⟨?_, ?_, ?_⟩
      all_goals simp [h]
      all_goals omega
  · rw [valuationVerdict_eq]
    norm_num [computableChecks, passingChecks, Option.any, VAL_EBITDA_LIMIT,
      VAL_FCF_LIMIT]

theorem buildLabelMap_foldl (base : List Quarter) :
    ∀ (acc : List (ℤ × Quarter)) (l : ℤ),
    aGet (base.foldl
      (fun m record =>
        if (aGet m record.period.qidx).isSome then m
        else m ++ [(record.period.qidx, record)]) acc) l =
      (aGet acc l).orElse
        (fun _ => base.find? (fun q => decide (q.period.qidx = l))) := by
  induction base with
  | nil =>
    intro acc l
    cases h : aGet acc l <;> simp [Option.orElse, h]
  | cons q rest ih =>
    intro acc l
    simp only [List.foldl_cons, List.find?]
    by_cases hq : (aGet acc q.period.qidx).isSome
    · rw [if_pos hq, ih acc l]
      by_cases hl : q.period.qidx = l
      · subst hl
        obtain ⟨v, hv⟩ := Option.isSome_iff_exists.mp hq
        simp [hv, Option.orElse]
      · simp [hl]
    · rw [if_neg hq, ih (acc ++ [(q.period.qidx, q)]) l, aGet_append]
      by_cases hl : q.period.qidx = l
      · subst hl
        rw [Option.not_isSome_iff_eq_none] at hq
        simp [hq, Option.orElse]
      · cases h : aGet acc l <;> simp [hl, Option.orElse]

theorem buildLabelMap_find (base : List Quarter) (l : ℤ) :
    aGet (buildLabelMap base) l =
      base.find? (fun q => decide (q.period.qidx = l)) := by
  have h := buildLabelMap_foldl base [] l
  simpa [buildLabelMap, aGet, Option.orElse] using h

/-- C3 counterexample: at clock quarter 400, an input with one non-future
quarter (quarter index 399) and one future quarter (index 401) has only 1
non-future quarter, so the code anchors the timeline at the future quarter's
label 401, not at the most recent non-future quarter's label 399 as the
claim requires. -/
theorem timeline_anchor_counterexample :
    ((scoreCompany ⟨400, 0⟩
        ⟨"T", none, [placeholderQuarter 401, placeholderQuarter 399]⟩).timeline.map
      (fun e => e.label)).head? = some 401 ∧ (401 : ℤ) ≠ 399 := by
  exact ⟨rfl, by decide⟩

/-- C3 (amended): for every input the timeline has exactly 16 entries, whose
labels step back one calendar quarter at a time from the anchor; the anchor
is the most recent quarter of the base list, where the base is the non-future
quarters when at least 4 exist and otherwise all quarters (so with 1–3
non-future quarters the anchor can be a future quarter); each label is filled
by the first-seen matching quarter of the base list (with fiscal fields
defaulted), else by a synthesized placeholder whose financial fields are all
unknown and whose `hasData` is false. -/
theorem timeline_structure (today : Instant) (f : Fundamentals) :
    (scoreCompany today f).timeline.length = 16 ∧
    (baseQuarters today f =
      if 4 ≤ (usableQuarters today f).length then usableQuarters today f
      else sortQuarters f.quarters) ∧
    ∀ (i : ℕ) (e : TimelineEntry), (scoreCompany today f).timeline[i]? = some e →
      e.label = anchorQidx today f - (i : ℤ) ∧
      (match (baseQuarters today f).find?
          (fun q => decide (q.period.qidx = anchorQidx today f - (i : ℤ))) with
       | some q =>
         e.hasData = true ∧ e.quarter = fillQuarter q (anchorQidx today f - (i : ℤ))
       | none =>
         e.hasData = false ∧
         e.quarter = placeholderQuarter (anchorQidx today f - (i : ℤ)) ∧
         e.quarter.revenue = none ∧ e.quarter.grossProfit = none ∧
         e.quarter.sga = none ∧ e.quarter.rnd = none ∧ e.quarter.ocf = none ∧
         e.quarter.capex = none ∧ e.quarter.inventory = none ∧
         e.quarter.receivables = none ∧ e.quarter.cash = none ∧
         e.quarter.totalDebt = none ∧ e.quarter.dilutedShares = none ∧
         e.quarter.ebitda = none ∧ e.quarter.netIncome = none) := by
  refine ⟨rfl, rfl, ?_⟩
  intro i e he
  have ht : (scoreCompany today f).timeline =
      (List.range 16).map
        (fun (j : ℕ) =>
          timelineEntry (baseQuarters today f) (anchorQidx today f - (j : ℤ))) := rfl
  rw [ht, List.getElem?_map] at he
  by_cases hi : i < 16
  · rw [List.getElem?_range hi] at he
    have he' : e = timelineEntry (baseQuarters today f) (anchorQidx today f - (i : ℤ)) := by
      simpa using he.symm
    subst he'
    have hmap := buildLabelMap_find (baseQuarters today f) (anchorQidx today f - (i : ℤ))
    rcases hg : aGet (buildLabelMap (baseQuarters today f))
        (anchorQidx today f - (i : ℤ)) with _ | q
    · have hE : timelineEntry (baseQuarters today f) (anchorQidx today f - (i : ℤ)) =
          ⟨anchorQidx today f - (i : ℤ),
            placeholderQuarter (anchorQidx today f - (i : ℤ)), false⟩ := by
        simp [timelineEntry, hg]
      have hfind : (baseQuarters today f).find?
          (fun q => decide (q.period.qidx = anchorQidx today f - (i : ℤ))) = none := by
        rw [← hmap]; exact hg
      rw [hE, hfind]
      exact ⟨rfl, rfl, rfl, rfl, rfl, rfl, rfl, rfl, rfl, rfl, rfl, rfl, rfl,
        rfl, rfl, rfl⟩
    · have hE : timelineEntry (baseQuarters today f) (anchorQidx today f - (i : ℤ)) =
          ⟨anchorQidx today f - (i : ℤ),
            fillQuarter q (anchorQidx today f - (i : ℤ)), true⟩ := by
        simp [timelineEntry, hg]
      have hfind : (baseQuarters today f).find?
          (fun q => decide (q.period.qidx = anchorQidx today f - (i : ℤ))) = some q := by
        rw [← hmap]; exact hg
      rw [hE, hfind]
      exact ⟨rfl, rfl, rfl⟩
  · have hnone : (List.range 16)[i]? = none := by
      rw [List.getElem?_eq_none]
      simpa using Nat.le_of_not_lt hi
    rw [hnone] at he
    exact absurd he (by simp)

/-- Witness for `timeline_structure` at a concrete input. -/
theorem timeline_structure_witness :
    (scoreCompany ⟨0, 0⟩ ⟨"A", none, []⟩).timeline[0]? =
      some ⟨0, placeholderQuarter 0, false⟩ ∧
    (⟨0, placeholderQuarter 0, false⟩ : TimelineEntry).label =
      anchorQidx ⟨0, 0⟩ ⟨"A", none, []⟩ - (0 : ℕ) :=
  ⟨rfl,
    ((timeline_structure ⟨0, 0⟩ ⟨"A", none, []⟩).2.2 0
      ⟨0, placeholderQuarter 0, false⟩ rfl).1⟩

/-- A parsed calendar date as the XBRL extractor observes it through dayjs:
the epoch instant, the day number (basis of day differences), and the
calendar year and quarter. -/
structure FDate where
  instant : ℤ
  day : ℤ
  year : ℤ
  quarter : ℤ
deriving DecidableEq, Repr

/-- `QuarterDatum` from `lib/fetchers.ts`; date strings are modelled by their
parsed epoch values, `none` for absent. -/
structure QuarterDatum where
  value : ℚ
  end_ : Option ℤ
  filed : Option ℤ
  start : Option ℤ
deriving DecidableEq, Repr

/-- A single reported fact, after `safeNum`/`toISODate` normalization:
`val` is `none` when not a finite number, `endDate`/`startDate` are `none`
when missing or unparseable. -/
structure FactEntry where
  form : Option String
  val : Option ℚ
  endDate : Option FDate
  startDate : Option FDate
  fy : Option ℤ
  fp : Option String
  frame : Option String
  filed : Option ℤ
deriving DecidableEq, Repr

/-- `ConceptConfig` from `lib/fetchers.ts`. -/
structure ConceptConfig where
  taxonomy : String
  concepts : List String
  units : Option (List String)
deriving DecidableEq, Repr

/-- The extraction mode of `collectFactSeries`. -/
inductive ExtractMode where
  | instant
  | duration
deriving DecidableEq, Repr

/-- Map from unit name to its reported fact entries (`conceptData.units`). -/
abbrev UnitMap := List (String × List FactEntry)

/-- Map from concept name to its unit map. -/
abbrev ConceptMap := List (String × UnitMap)

/-- A company-facts document: taxonomy → concept → unit → facts. -/
abbrev FactsDoc := List (String × ConceptMap)

/-- Quarter-keyed datum store. -/
abbrev AListD := List (String × QuarterDatum)

/-- `allowedForms` from `lib/fetchers.ts`. -/
def allowedForms : List String := ["10-Q", "10-Q/A", "10-K", "10-K/A"]

/-- Numeric value of a digit list. -/
def digitsVal (cs : List Char) : ℤ :=
  cs.foldl (fun acc c => acc * 10 + ((c.toNat : ℤ) - ('0'.toNat : ℤ))) 0

/-- `parseQuarterKey` from `lib/fetchers.ts`: a key matching
`^(\d{4})Q([1-4])$` yields its year and quarter, anything else `(0, 0)`. -/
def parseQuarterKey (k : String) : ℤ × ℤ :=
  match k.toList with
  | [a, b, c, d, q, e] =>
    if a.isDigit ∧ b.isDigit ∧ c.isDigit ∧ d.isDigit ∧ q = 'Q' ∧
        (e = '1' ∨ e = '2' ∨ e = '3' ∨ e = '4') then
      (digitsVal [a, b, c, d], digitsVal [e])
    else (0, 0)
  | _ => (0, 0)

/-- Quarter-key template `"{year}Q{quarter}"`. -/
def mkKey (y q : ℤ) : String := toString y ++ "Q" ++ toString q

/-- Quarter-key template when the quarter may be the not-a-number sentinel
(JavaScript renders it as `"NaN"`). -/
def mkKeyOpt (y : ℤ) (q : Option ℤ) : String :=
  toString y ++ "Q" ++ (match q with | some v => toString v | none => "NaN")

/-- Rank realizing the `quarterSortAsc` comparator (years dominate,
quarters 0–4 break ties). -/
def keyRank (k : String) : ℤ :=
  (parseQuarterKey k).1 * 8 + (parseQuarterKey k).2

/-- The keys of a datum store, sorted ascending with `quarterSortAsc`
(stable, like `Array.prototype.sort`). -/
def sortKeysAsc (m : AListD) : List String :=
  stableSort (fun a b => decide (keyRank a ≤ keyRank b)) (m.map (fun p => p.1))

/-- JavaScript `Number()` on the digits of a fiscal-period tag: empty string
is 0, optionally signed digit strings parse, anything else (including the
fractional or exponent literals that never occur in `fp` tags) is treated as
the not-a-number sentinel. -/
def jsNumberInt (s : String) : Option ℤ :=
  let t := s.trim
  if t = "" then some 0
  else
    let digits := if t.startsWith "-" ∨ t.startsWith "+" then t.drop 1 else t
    let sign : ℤ := if t.startsWith "-" then -1 else 1
    if digits.length ≠ 0 ∧ digits.toList.all Char.isDigit then
      some (sign * digitsVal digits.toList)
    else none

/-- `quarterFrameRegex` (`^[A-Z]{2}(\d{4})Q([1-4])I$`, case-insensitive):
parse a frame label into its year and quarter. -/
def parseFrame (s : String) : Option (ℤ × ℤ) :=
  match s.toList with
  | [a, b, c, d, e, f, g, h, i] =>
    if a.isAlpha ∧ b.isAlpha ∧ c.isDigit ∧ d.isDigit ∧ e.isDigit ∧ f.isDigit ∧
        (g = 'Q' ∨ g = 'q') ∧ (h = '1' ∨ h = '2' ∨ h = '3' ∨ h = '4') ∧
        (i = 'I' ∨ i = 'i') then
      some (digitsVal [c, d, e, f], digitsVal [h])
    else none
  | _ => none

/-- `normalizeValue` from `lib/fetchers.ts`: unit scaling to the canonical
currency/share unit. -/
def normalizeValue (value : ℚ) (unit : String) : ℚ :=
  match unit.toLower with
  | "usdm" | "usdmm" | "usd (in millions)" => value * 1000000
  | "usdbn" => value * 1000000000
  | "usdth" | "usd thousands" | "usd (in thousands)" => value * 1000
  | "sharesm" | "shares (in millions)" => value * 1000000
  | _ => value

/-- `new Date(filed).getTime()` with the source's missing-date default 0. -/
def filedTime (d : Option ℤ) : ℤ := d.getD 0

/-- `updateQuarterDatum` from `lib/fetchers.ts`: keep the entry with the most
recent filing date; a new entry replaces the stored one exactly when its
filing date is greater than or equal to the stored one's. -/
def updateQuarterDatum (m : AListD) (key : String) (datum : QuarterDatum) : AListD :=
  match aGet m key with
  | none => aSet m key datum
  | some existing =>
    if filedTime existing.filed ≤ filedTime datum.filed then aSet m key datum
    else m

/-- Value assigned to a year-to-date-only key by the decomposition loop of
`collectFactSeries`: the cumulative value minus the prior quarter's datum
(prior YTD entry if present, else the prior entry of the result store). -/
def ytdResolvedValue (ytd res : AListD) (k : String) (cur : QuarterDatum) : ℚ :=
  if 1 < (parseQuarterKey k).2 then
    match (aGet ytd (mkKey (parseQuarterKey k).1 ((parseQuarterKey k).2 - 1))).orElse
        (fun _ => aGet res (mkKey (parseQuarterKey k).1 ((parseQuarterKey k).2 - 1))) with
    | some prev => cur.value - prev.value
    | none => cur.value
  else cur.value

/-- The year-to-date decomposition loop at the end of `collectFactSeries`
(duration mode): walk the YTD keys, skip keys already resolved, and derive
each remaining quarterly value by prior-cumulative subtraction. -/
def resolveYtd (result0 : AListD) (ytd : AListD) (keys : List String) : AListD :=
  keys.foldl
    (fun result key =>
      if (aGet result key).isSome then result
      else
        match aGet ytd key with
        | none => result
        | some cur =>
          aSet result key ⟨ytdResolvedValue ytd result key cur, cur.end_, cur.filed, none⟩)
    result0

/-- The fiscal-quarter tag resolved for one fact, before validity checking:
an explicit `Q...` fiscal-period tag, the 4th-quarter default for `FY` tags
and annual forms, else the calendar quarter of the end date.  `none` models
the not-a-number result of parsing a malformed tag. -/
def entryQ0 (form : String) (endD : FDate) (e : FactEntry) : Option ℤ :=
  if (match e.fp with | some fp => fp.startsWith "Q" | none => false) then
    jsNumberInt ((e.fp.getD "").drop 1)
  else if e.fp = some "FY" ∨ form.startsWith "10-K" then some 4
  else some endD.quarter

/-- The quarter key a fact is stored under: the resolved fiscal tag when it
is a valid quarter 1..4, else the frame label when one parses, else the
calendar quarter of the end date. -/
def entryKey (form : String) (endD : FDate) (e : FactEntry) : String :=
  let year0 : ℤ := e.fy.getD endD.year
  let q0 := entryQ0 form endD e
  let invalid : Bool :=
    match q0 with | some q => decide (q < 1 ∨ 4 < q) | none => false
  if invalid then
    match e.frame.bind parseFrame with
    | some yq => mkKey yq.1 yq.2
    | none => mkKey year0 endD.quarter
  else mkKeyOpt year0 q0

/-- The datum a fact is stored as: scaled value, end instant, filing date
(defaulted to the end date) and start instant. -/
def entryDatum (unit : String) (v : ℚ) (endD : FDate) (e : FactEntry) : QuarterDatum :=
  ⟨normalizeValue v unit, some endD.instant,
    (match e.filed with | some t => some t | none => some endD.instant),
    e.startDate.map (fun s => s.instant)⟩

/-- Per-fact processing of `collectFactSeries`: form filter, unit scaling,
quarter-key resolution (fiscal tag, annual default, calendar quarter, frame
fallback), and classification into the quarterly or year-to-date store. -/
def processEntry (mode : ExtractMode) (unit : String)
    (st : AListD × AListD) (e : FactEntry) : AListD × AListD :=
  match e.form with
  | none => st
  | some form =>
    if ¬ allowedForms.contains form then st
    else
      match e.val with
      | none => st
      | some v =>
        match e.endDate with
        | none => st
        | some endD =>
          let durationDays : Option ℤ := e.startDate.map (fun s => |endD.day - s.day|)
          let key := entryKey form endD e
          let datum := entryDatum unit v endD e
          match mode with
          | .instant => (updateQuarterDatum st.1 key datum, st.2)
          | .duration =>
            match durationDays with
            | some d =>
              if d ≤ 120 then (updateQuarterDatum st.1 key datum, st.2)
              else (st.1, updateQuarterDatum st.2 key datum)
            | none => (st.1, updateQuarterDatum st.2 key datum)

/-- `collectFactSeries` from `lib/fetchers.ts`: scan the configured concepts
and units of a facts document, then (in duration mode) decompose
year-to-date-only entries into quarterly values. -/
def collectFactSeries (facts : FactsDoc) (configs : List ConceptConfig)
    (mode : ExtractMode) : AListD :=
  let st : AListD × AListD :=
    configs.foldl
      (fun st cfg =>
        match aGet facts cfg.taxonomy with
        | none => st
        | some conceptMap =>
          cfg.concepts.foldl
            (fun st concept =>
              match aGet conceptMap concept with
              | none => st
              | some units =>
                let unitEntries : UnitMap :=
                  match cfg.units with
                  | some us =>
                    us.filterMap (fun u => (aGet units u).map (fun es => (u, es)))
                  | none => units
                unitEntries.foldl (fun st p => p.2.foldl (processEntry mode p.1) st) st)
            st)
      ([], [])
  match mode with
  | .instant => st.1
  | .duration => resolveYtd st.1 st.2 (sortKeysAsc st.2)

/-- A `Partial<Quarter>` patch: `some` models a field that is present and
finite (a present fiscal field for the two fiscal slots); `none` models an
absent (or non-finite numeric) field, which never overwrites. -/
structure QuarterPatch where
  revenue : Option ℚ
  grossProfit : Option ℚ
  sga : Option ℚ
  rnd : Option ℚ
  ocf : Option ℚ
  capex : Option ℚ
  inventory : Option ℚ
  receivables : Option ℚ
  cash : Option ℚ
  totalDebt : Option ℚ
  dilutedShares : Option ℚ
  ebitda : Option ℚ
  netIncome : Option ℚ
  fiscalYear : Option ℤ
  fiscalQuarter : Option ℤ
deriving DecidableEq, Repr

/-- One field of `applyPatch`: write the patch value when it qualifies,
else keep the stored value. -/
def mergeField {α : Type} (patchVal cur : Option α) : Option α :=
  match patchVal with
  | some v => some v
  | none => cur

/-- `ensureQuarter` base record: a quarter with every financial field
unknown, for the given period key. -/
def emptyQuarter (iso : Instant) : Quarter :=
  { period := iso
    revenue := none, grossProfit := none, sga := none, rnd := none
    ocf := none, capex := none, inventory := none, receivables := none
    cash := none, totalDebt := none, dilutedShares := none
    ebitda := none, netIncome := none
    fiscalYear := none, fiscalQuarter := none }

/-- `ensureQuarter` from `lib/fetchers.ts`: the stored record for the key,
or a fresh all-unknown record. -/
def getOrCreate (byDate : List (Instant × Quarter)) (key : Instant) : Quarter :=
  match aGet byDate key with
  | some q => q
  | none => emptyQuarter key

/-- The field updates of `applyPatch`, applied to one quarter record. -/
def mergeQuarter (q : Quarter) (patch : QuarterPatch) : Quarter :=
  { period := q.period
    revenue := mergeField patch.revenue q.revenue
    grossProfit := mergeField patch.grossProfit q.grossProfit
    sga := mergeField patch.sga q.sga
    rnd := mergeField patch.rnd q.rnd
    ocf := mergeField patch.ocf q.ocf
    capex := mergeField patch.capex q.capex
    inventory := mergeField patch.inventory q.inventory
    receivables := mergeField patch.receivables q.receivables
    cash := mergeField patch.cash q.cash
    totalDebt := mergeField patch.totalDebt q.totalDebt
    dilutedShares := mergeField patch.dilutedShares q.dilutedShares
    ebitda := mergeField patch.ebitda q.ebitda
    netIncome := mergeField patch.netIncome q.netIncome
    fiscalYear := mergeField patch.fiscalYear q.fiscalYear
    fiscalQuarter := mergeField patch.fiscalQuarter q.fiscalQuarter }

/-- `applyPatch` from `lib/fetchers.ts`: no-op on a null key, else ensure a
record exists for the key and overwrite each qualifying patched field. -/
def applyPatch (byDate : List (Instant × Quarter)) (iso : Option Instant)
    (patch : QuarterPatch) : List (Instant × Quarter) :=
  match iso with
  | none => byDate
  | some key => aSet byDate key (mergeQuarter (getOrCreate byDate key) patch)

theorem mergeField_idem {α : Type} (a b : Option α) :
    mergeField a (mergeField a b) = mergeField a b := by
  cases a <;> rfl

theorem mergeQuarter_idem (q : Quarter) (p : QuarterPatch) :
    mergeQuarter (mergeQuarter q p) p = mergeQuarter q p := by
  simp [mergeQuarter, mergeField_idem]

/-- C9: `applyPatch` is idempotent — for every store, period key (including
the null key) and partial patch, applying the same patch twice leaves the
store exactly as applying it once. -/
theorem applyPatch_idempotent (m : List (Instant × Quarter)) (iso : Option Instant)
    (p : QuarterPatch) :
    applyPatch (applyPatch m iso p) iso p = applyPatch m iso p := by
  rcases iso with _ | key
  · rfl
  · have h1 : getOrCreate (applyPatch m (some key) p) key =
        mergeQuarter (getOrCreate m key) p := by
      simp [getOrCreate, applyPatch, aGet_aSet_self]
    show aSet (applyPatch m (some key) p) key
        (mergeQuarter (getOrCreate (applyPatch m (some key) p) key) p) = _
    rw [h1, mergeQuarter_idem]
    show aSet (aSet m key (mergeQuarter (getOrCreate m key) p)) key
        (mergeQuarter (getOrCreate m key) p) = _
    rw [aSet_aSet]
    rfl

/-- C6: when two facts compete for one quarter key, `updateQuarterDatum`
replaces the stored entry exactly when the new filing date is greater than or
equal to the stored one — so the later-processed fact wins an exact tie —
and a fresh key is simply inserted; extraction over the same document is a
pure function of its inputs, hence deterministic. -/
theorem updateQuarterDatum_spec (m : AListD) (k : String) (d : QuarterDatum) :
    (∀ e, aGet m k = some e →
      updateQuarterDatum m k d =
        (if filedTime e.filed ≤ filedTime d.filed then aSet m k d else m)) ∧
    (aGet m k = none → updateQuarterDatum m k d = aSet m k d) ∧
    (∀ e, aGet m k = some e → filedTime e.filed = filedTime d.filed →
      aGet (updateQuarterDatum m k d) k = some d) := by
  refine ⟨?_, ?_, ?_⟩
  · intro e he
    simp [updateQuarterDatum, he]
  · intro h
    simp [updateQuarterDatum, h]
  · intro e he hf
    simp [updateQuarterDatum, he, hf, aGet_aSet_self]

/-- Witness for `updateQuarterDatum_spec`: an exact filing-date tie is won
by the later-processed datum. -/
theorem updateQuarterDatum_spec_witness :
    aGet [("2020Q1", (⟨100, none, some 5, none⟩ : QuarterDatum))] "2020Q1" =
      some ⟨100, none, some 5, none⟩ ∧
    filedTime (⟨100, none, some 5, none⟩ : QuarterDatum).filed =
      filedTime (⟨200, none, some 5, none⟩ : QuarterDatum).filed ∧
    aGet (updateQuarterDatum [("2020Q1", ⟨100, none, some 5, none⟩)] "2020Q1"
        ⟨200, none, some 5, none⟩) "2020Q1" = some ⟨200, none, some 5, none⟩ :=
  ⟨rfl, rfl,
    (updateQuarterDatum_spec [("2020Q1", ⟨100, none, some 5, none⟩)] "2020Q1"
      ⟨200, none, some 5, none⟩).2.2 ⟨100, none, some 5, none⟩ rfl rfl⟩

theorem resolveYtd_keeps (ytd : AListD) (keys : List String) :
    ∀ (res : AListD) (k : String) (d : QuarterDatum),
    aGet res k = some d → aGet (resolveYtd res ytd keys) k = some d := by
  induction keys with
  | nil => intro res k d h; exact h
  | cons key rest ih =>
    intro res k d h
    show aGet (resolveYtd (if (aGet res key).isSome then res
      else match aGet ytd key with
        | none => res
        | some cur =>
          aSet res key ⟨ytdResolvedValue ytd res key cur, cur.end_, cur.filed, none⟩)
      ytd rest) k = some d
    by_cases hks : (aGet res key).isSome
    · rw [if_pos hks]
      exact ih res k d h
    · rw [if_neg hks]
      rcases hy : aGet ytd key with _ | cur
      · exact ih res k d h
      · have hne : key ≠ k := by
          intro hEq
          rw [hEq, h] at hks
          exact hks rfl
        refine ih _ k d ?_
        rw [aGet_aSet_ne _ _ _ _ hne]
        exact h

theorem resolveYtd_step (res : AListD) (ytd : AListD) (key : String)
    (keys : List String) :
    resolveYtd res ytd (key :: keys) =
      resolveYtd (if (aGet res key).isSome then res
        else match aGet ytd key with
          | none => res
          | some cur =>
            aSet res key ⟨ytdResolvedValue ytd res key cur, cur.end_, cur.filed, none⟩)
        ytd keys := rfl

theorem ytdResolvedValue_congr (ytd res res' : AListD) (k : String)
    (cur : QuarterDatum)
    (h : aGet ytd (mkKey (parseQuarterKey k).1 ((parseQuarterKey k).2 - 1)) = none →
      aGet res' (mkKey (parseQuarterKey k).1 ((parseQuarterKey k).2 - 1)) =
        aGet res (mkKey (parseQuarterKey k).1 ((parseQuarterKey k).2 - 1))) :
    ytdResolvedValue ytd res' k cur = ytdResolvedValue ytd res k cur := by
  unfold ytdResolvedValue
  rcases hy : aGet ytd (mkKey (parseQuarterKey k).1 ((parseQuarterKey k).2 - 1)) with _ | p
  · rw [h hy]
  · simp [Option.orElse]

theorem resolveYtd_value_go (ytd : AListD) (keys : List String) :
    ∀ (res : AListD) (k : String) (cur : QuarterDatum), keys.Nodup → k ∈ keys →
    aGet res k = none → aGet ytd k = some cur →
    aGet (resolveYtd res ytd keys) k =
      some ⟨ytdResolvedValue ytd res k cur, cur.end_, cur.filed, none⟩ := by
  induction keys with
  | nil => intro res k cur _ hk; exact absurd hk (by simp)
  | cons key rest ih =>
    intro res k cur hnd hk hres hytd
    rcases List.mem_cons.mp hk with hEq | hTail
    · subst hEq
      rw [resolveYtd_step]
      rw [if_neg (by rw [hres]; exact fun h => by simp at h), hytd]
      exact resolveYtd_keeps ytd rest _ k _ (aGet_aSet_self res k _)
    · have hne : key ≠ k := fun hEq => (List.nodup_cons.mp hnd).1 (hEq ▸ hTail)
      rw [resolveYtd_step]
      by_cases hks : (aGet res key).isSome
      · rw [if_pos hks]
        exact ih res k cur (List.nodup_cons.mp hnd).2 hTail hres hytd
      · rw [if_neg hks]
        rcases hy : aGet ytd key with _ | curk
        · exact ih res k cur (List.nodup_cons.mp hnd).2 hTail hres hytd
        · set res' := aSet res key
            ⟨ytdResolvedValue ytd res key curk, curk.end_, curk.filed, none⟩ with hres'
          have hres'k : aGet res' k = none := by
            rw [hres', aGet_aSet_ne _ _ _ _ hne, hres]
          have hval : ytdResolvedValue ytd res' k cur = ytdResolvedValue ytd res k cur := by
            refine ytdResolvedValue_congr ytd res res' k cur (fun hprev => ?_)
            have hkp : key ≠ mkKey (parseQuarterKey k).1 ((parseQuarterKey k).2 - 1) := by
              intro hEq
              rw [hEq, hprev] at hy
              exact Option.noConfusion hy
            rw [hres', aGet_aSet_ne _ _ _ _ hkp]
          rw [← hval]
          exact ih res' k cur (List.nodup_cons.mp hnd).2 hTail hres'k hytd

/-- C4: in duration mode, every quarter key present only as a year-to-date
entry is assigned the quarterly value equal to its cumulative value minus
the prior quarter's cumulative value — the prior quarter's YTD entry if
present, else the prior quarter's entry of the result store — while a
quarter-1 (or prior-less) YTD entry keeps its value unchanged; in
particular, cumulative inputs 100 (Q1), 250 (Q2 YTD), 400 (Q3 YTD) yield
quarterly values 100, 150, 150. -/
theorem resolveYtd_value (qv ytd : AListD) (keys : List String) (k : String)
    (cur : QuarterDatum) (hnd : keys.Nodup) (hk : k ∈ keys)
    (hqv : aGet qv k = none) (hytd : aGet ytd k = some cur) :
    aGet (resolveYtd qv ytd keys) k =
      some ⟨ytdResolvedValue ytd qv k cur, cur.end_, cur.filed, none⟩ ∧
    ytdResolvedValue ytd qv k cur =
      (if 1 < (parseQuarterKey k).2 then
        match (aGet ytd (mkKey (parseQuarterKey k).1 ((parseQuarterKey k).2 - 1))).orElse
            (fun _ => aGet qv (mkKey (parseQuarterKey k).1 ((parseQuarterKey k).2 - 1))) with
        | some prev => cur.value - prev.value
        | none => cur.value
      else cur.value) :=
  ⟨resolveYtd_value_go ytd keys qv k cur hnd hk hqv hytd, rfl⟩

/-- Witness for `resolveYtd_value`: the 100 / 250 / 400 cumulative example
resolves 2023Q2 to 150 (and, by two further applications, 2023Q3 to 150 and
2023Q1 to 100). -/
theorem resolveYtd_value_witness :
    (["2023Q1", "2023Q2", "2023Q3"].Nodup ∧
      aGet ([] : AListD) "2023Q2" = none ∧
      aGet [("2023Q1", (⟨100, none, none, none⟩ : QuarterDatum)),
        ("2023Q2", ⟨250, none, none, none⟩),
        ("2023Q3", ⟨400, none, none, none⟩)] "2023Q2" =
        some ⟨250, none, none, none⟩) ∧
    aGet (resolveYtd []
        [("2023Q1", ⟨100, none, none, none⟩), ("2023Q2", ⟨250, none, none, none⟩),
          ("2023Q3", ⟨400, none, none, none⟩)]
        ["2023Q1", "2023Q2", "2023Q3"]) "2023Q2" =
      some ⟨150, none, none, none⟩ := by
  refine ⟨⟨by decide, rfl, rfl⟩, ?_⟩
  have h := (resolveYtd_value []
    [("2023Q1", ⟨100, none, none, none⟩), ("2023Q2", ⟨250, none, none, none⟩),
      ("2023Q3", ⟨400, none, none, none⟩)]
    ["2023Q1", "2023Q2", "2023Q3"] "2023Q2" ⟨250, none, none, none⟩
    (by decide) (by decide) rfl rfl).1
  rw [h]
  have hpq : parseQuarterKey "2023Q2" = (2023, 2) := by decide
  have hmk : mkKey 2023 1 = "2023Q1" := by decide
  have hget : aGet [("2023Q1", (⟨100, none, none, none⟩ : QuarterDatum)),
      ("2023Q2", ⟨250, none, none, none⟩), ("2023Q3", ⟨400, none, none, none⟩)]
      "2023Q1" = some ⟨100, none, none, none⟩ := by decide
  have hval : ytdResolvedValue
      [("2023Q1", ⟨100, none, none, none⟩), ("2023Q2", ⟨250, none, none, none⟩),
        ("2023Q3", ⟨400, none, none, none⟩)] ([] : AListD) "2023Q2"
      ⟨250, none, none, none⟩ = 150 := by
    unfold ytdResolvedValue
    rw [hpq]
    norm_num [hmk, hget, Option.orElse]
  rw [hval]

/-- C10: in duration mode, a fact with a resolvable end date but no
resolvable start date (so no span length) is classified into the
year-to-date store, leaving the quarterly store untouched, and the
decomposition step never overrides a key that already has a quarterly
entry. -/
theorem durationMode_no_start (unit : String) (st : AListD × AListD)
    (e : FactEntry) :
    (∀ form v endD, e.form = some form → allowedForms.contains form = true →
      e.val = some v → e.endDate = some endD → e.startDate = none →
      (processEntry .duration unit st e).1 = st.1 ∧
      (processEntry .duration unit st e).2 =
        updateQuarterDatum st.2 (entryKey form endD e) (entryDatum unit v endD e)) ∧
    (∀ (qv ytd : AListD) (keys : List String) (k : String) (d : QuarterDatum),
      aGet qv k = some d → aGet (resolveYtd qv ytd keys) k = some d) := by
  constructor
  · intro form v endD hform hallowed hval hend hstart
    have hmem : form ∈ allowedForms := by simpa using hallowed
    constructor
    · simp [processEntry, hform, hmem, hval, hend, hstart]
    · simp [processEntry, hform, hmem, hval, hend, hstart]
  · intro qv ytd keys k d h
    exact resolveYtd_keeps ytd keys qv k d h

/-- Witness for `durationMode_no_start`: a 10-Q fact with an end date and no
start date goes to the year-to-date store and leaves the quarterly store
unchanged. -/
theorem durationMode_no_start_witness :
    (FactEntry.mk (some "10-Q") (some 5) (some ⟨1000, 10, 2020, 2⟩) none
        none none none none).form = some "10-Q" ∧
    allowedForms.contains "10-Q" = true ∧
    (processEntry .duration "USD" ([], [])
        ⟨some "10-Q", some 5, some ⟨1000, 10, 2020, 2⟩, none, none, none, none, none⟩).1 =
      ([] : AListD) ∧
    (processEntry .duration "USD" ([], [])
        ⟨some "10-Q", some 5, some ⟨1000, 10, 2020, 2⟩, none, none, none, none, none⟩).2 =
      updateQuarterDatum []
        (entryKey "10-Q" ⟨1000, 10, 2020, 2⟩
          ⟨some "10-Q", some 5, some ⟨1000, 10, 2020, 2⟩, none, none, none, none, none⟩)
        (entryDatum "USD" 5 ⟨1000, 10, 2020, 2⟩
          ⟨some "10-Q", some 5, some ⟨1000, 10, 2020, 2⟩, none, none, none, none, none⟩) := by
  have h := (durationMode_no_start "USD" ([], [])
    ⟨some "10-Q", some 5, some ⟨1000, 10, 2020, 2⟩, none, none, none, none, none⟩).1
    "10-Q" 5 ⟨1000, 10, 2020, 2⟩ rfl (by decide) rfl rfl rfl
  exact ⟨rfl, by decide, h.1, h.2⟩

/-- `ProviderError` from `lib/fetchers.ts`, as produced by
`createProviderError`. -/
structure ProviderError where
  name : String
  message : String
  provider : String
  recoverable : Bool
  reason : Option String
deriving DecidableEq, Repr

/-- `createProviderError` from `lib/fetchers.ts`: tags the message with the
provider and records recoverability and the error reason. -/
def createProviderError (provider message : String) (recoverable : Bool)
    (reason : Option String) : ProviderError :=
  { name := provider ++ "ProviderError"
    message := "[" ++ provider ++ "] " ++ message
    provider := provider
    recoverable := recoverable
    reason := reason }

/-- The observable behaviour of one provider adapter call: a `Fundamentals`
value or a thrown `ProviderError`. -/
inductive FetchOutcome where
  | ok (f : Fundamentals)
  | err (e : ProviderError)
deriving DecidableEq, Repr

/-- The provider loop of `fetchFundamentals`: try each outcome in order,
return the first success, record recoverable failures and rethrow a
non-recoverable one immediately; when all fail, throw the aggregate
"exhausted" error whose message joins the recorded messages with "｜". -/
def tryProviders : List FetchOutcome → List String → Except ProviderError Fundamentals
  | [], errors =>
    .error (createProviderError "DATA"
      (if errors.length ≠ 0 then
        "所有外部財報來源皆失敗：" ++ String.intercalate "｜" errors
      else "所有外部財報來源皆失敗。") false (some "exhausted"))
  | o :: rest, errors =>
    match o with
    | .ok f => .ok f
    | .err e =>
      let errors' := errors ++ [e.message]
      if e.recoverable then tryProviders rest errors' else .error e

/-- `fetchFundamentals` from `lib/fetchers.ts`: upper-case the ticker and try
the adapters in the fixed order SEC, FMP, Finnhub.  Each adapter's behaviour
is passed in as a function of the symbol. -/
def fetchFundamentals (secFetch fmpFetch finnhubFetch : String → FetchOutcome)
    (ticker : String) : Except ProviderError Fundamentals :=
  tryProviders
    [secFetch ticker.toUpper, fmpFetch ticker.toUpper, finnhubFetch ticker.toUpper] []

/-- C2: `fetchFundamentals` tries SEC, then FMP, then Finnhub; the first
success is returned without consulting later adapters; a recoverable error
records its message and falls through; a non-recoverable error is rethrown
immediately with no fallback; and when all three fail recoverably it throws
the single non-recoverable "exhausted" error whose message joins the three
recorded provider messages with the "｜" delimiter. -/
theorem fetchFundamentals_fallback (sec fmp fin : String → FetchOutcome)
    (ticker : String) :
    (∀ g, sec ticker.toUpper = .ok g →
      fetchFundamentals sec fmp fin ticker = .ok g) ∧
    (∀ e, sec ticker.toUpper = .err e → e.recoverable = false →
      fetchFundamentals sec fmp fin ticker = .error e) ∧
    (∀ e g, sec ticker.toUpper = .err e → e.recoverable = true →
      fmp ticker.toUpper = .ok g →
      fetchFundamentals sec fmp fin ticker = .ok g) ∧
    (∀ e e', sec ticker.toUpper = .err e → e.recoverable = true →
      fmp ticker.toUpper = .err e' → e'.recoverable = false →
      fetchFundamentals sec fmp fin ticker = .error e') ∧
    (∀ e e' g, sec ticker.toUpper = .err e → e.recoverable = true →
      fmp ticker.toUpper = .err e' → e'.recoverable = true →
      fin ticker.toUpper = .ok g →
      fetchFundamentals sec fmp fin ticker = .ok g) ∧
    (∀ e e' e'', sec ticker.toUpper = .err e → e.recoverable = true →
      fmp ticker.toUpper = .err e' → e'.recoverable = true →
      fin ticker.toUpper = .err e'' → e''.recoverable = false →
      fetchFundamentals sec fmp fin ticker = .error e'') ∧
    (∀ e e' e'', sec ticker.toUpper = .err e → e.recoverable = true →
      fmp ticker.toUpper = .err e' → e'.recoverable = true →
      fin ticker.toUpper = .err e'' → e''.recoverable = true →
      fetchFundamentals sec fmp fin ticker =
        .error (createProviderError "DATA"
          ("所有外部財報來源皆失敗：" ++
            String.intercalate "｜" [e.message, e'.message, e''.message])
          false (some "exhausted"))) := by
  refine ⟨?_, ?_, ?_, ?_, ?_, ?_, ?_⟩
  · intro g h1
    simp [fetchFundamentals, tryProviders, h1]
  · intro e h1 h2
    simp [fetchFundamentals, tryProviders, h1, h2]
  · intro e g h1 h2 h3
    simp [fetchFundamentals, tryProviders, h1, h2, h3]
  · intro e e' h1 h2 h3 h4
    simp [fetchFundamentals, tryProviders, h1, h2, h3, h4]
  · intro e e' g h1 h2 h3 h4 h5
    simp [fetchFundamentals, tryProviders, h1, h2, h3, h4, h5]
  · intro e e' e'' h1 h2 h3 h4 h5 h6
    simp [fetchFundamentals, tryProviders, h1, h2, h3, h4, h5, h6]
  · intro e e' e'' h1 h2 h3 h4 h5 h6
    simp [fetchFundamentals, tryProviders, h1, h2, h3, h4, h5, h6]

/-- Witness for `fetchFundamentals_fallback`: three recoverable failures
yield the aggregate exhausted error. -/
theorem fetchFundamentals_fallback_witness :
    ((fun _ => FetchOutcome.err (createProviderError "SEC" "quota" true
        (some "quota"))) : String → FetchOutcome) "NVDA" =
      .err (createProviderError "SEC" "quota" true (some "quota")) ∧
    (createProviderError "SEC" "quota" true (some "quota")).recoverable = true ∧
    fetchFundamentals
      (fun _ => .err (createProviderError "SEC" "quota" true (some "quota")))
      (fun _ => .err (createProviderError "FMP" "key" true (some "missing-key")))
      (fun _ => .err (createProviderError "Finnhub" "fmt" true (some "invalid-format")))
      "nvda" =
      .error (createProviderError "DATA"
        ("所有外部財報來源皆失敗：" ++
          String.intercalate "｜"
            [(createProviderError "SEC" "quota" true (some "quota")).message,
              (createProviderError "FMP" "key" true (some "missing-key")).message,
              (createProviderError "Finnhub" "fmt" true (some "invalid-format")).message])
        false (some "exhausted")) := by
  refine ⟨rfl, rfl, ?_⟩
  exact ((fetchFundamentals_fallback
    (fun _ => .err (createProviderError "SEC" "quota" true (some "quota")))
    (fun _ => .err (createProviderError "FMP" "key" true (some "missing-key")))
    (fun _ => .err (createProviderError "Finnhub" "fmt" true (some "invalid-format")))
    "nvda").2.2.2.2.2.2 _ _ _ rfl rfl rfl rfl rfl rfl)

/-- The body of an HTTP response, after reading text and attempting
`JSON.parse`: empty text (payload stays null), parseable JSON, or
unparseable non-empty text. -/
inductive FetchBody where
  | empty
  | jsonOk (payload : String)
  | malformed
deriving DecidableEq, Repr

/-- The observable outcome of one `fetch` call: a network failure or a
response with its status code, status text, and body. -/
inductive HttpResult where
  | networkFailure (msg : String)
  | response (status : ℕ) (statusText : String) (body : FetchBody)
deriving DecidableEq, Repr

/-- `fetchJson` from `lib/fetchers.ts` (used by the FMP and Finnhub
adapters): network failure → "network", unparseable body → "parse",
HTTP 429 → "quota", HTTP 401/403 → "unauthorized", other HTTP ≥400 →
"http-{status}", else the parsed payload (null for an empty body); every
error is recoverable. -/
def fetchJson (r : HttpResult) (provider : String) :
    Except ProviderError (Option String) :=
  match r with
  | .networkFailure msg =>
    .error (createProviderError provider ("網路錯誤：" ++ msg) true (some "network"))
  | .response status statusText body =>
    match body with
    | .malformed =>
      .error (createProviderError provider "無法解析回應 JSON。" true (some "parse"))
    | _ =>
      if status = 429 then
        .error (createProviderError provider "API 配額已用盡（HTTP 429）。" true
          (some "quota"))
      else if status = 401 ∨ status = 403 then
        .error (createProviderError provider
          ("授權受限（HTTP " ++ toString status ++ "）。") true (some "unauthorized"))
      else if 400 ≤ status then
        .error (createProviderError provider
          (("HTTP " ++ toString status ++ " " ++ statusText).trim) true
          (some ("http-" ++ toString status)))
      else .ok (match body with | .jsonOk p => some p | _ => none)

/-- `fetchJsonWithHeaders` from `lib/fetchers.ts` (the SEC adapter's own
HTTP handler): network failure → "network", unparseable body → "parse",
HTTP 429 → "quota", any other HTTP ≥400 — including 401 and 403 —
→ "http-{status}"; it has no "unauthorized" branch. -/
def fetchJsonWithHeaders (r : HttpResult) : Except ProviderError (Option String) :=
  match r with
  | .networkFailure msg =>
    .error (createProviderError "SEC" ("網路錯誤：" ++ msg) true (some "network"))
  | .response status statusText body =>
    match body with
    | .malformed =>
      .error (createProviderError "SEC" "無法解析回應 JSON。" true (some "parse"))
    | _ =>
      if status = 429 then
        .error (createProviderError "SEC" "SEC API 配額限制 (HTTP 429)。" true
          (some "quota"))
      else if 400 ≤ status then
        .error (createProviderError "SEC"
          (("HTTP " ++ toString status ++ " " ++ statusText).trim) true
          (some ("http-" ++ toString status)))
      else .ok (match body with | .jsonOk p => some p | _ => none)

/-- C8 counterexample: the SEC adapter's response handler
(`fetchJsonWithHeaders`) maps HTTP 401 to the recoverable reason
"http-401", not "unauthorized" as the claim asserts for all three
adapters. -/
theorem sec_unauthorized_counterexample :
    fetchJsonWithHeaders (.response 401 "" .empty) =
      .error (createProviderError "SEC" (("HTTP " ++ toString 401 ++ " " ++ "").trim)
        true (some "http-401")) ∧
    (createProviderError "SEC" (("HTTP " ++ toString 401 ++ " " ++ "").trim)
      true (some "http-401")).reason ≠ some "unauthorized" := by
  exact ⟨rfl, by decide⟩

/-- C8 (amended): the FMP and Finnhub adapters' handler (`fetchJson`) maps
HTTP 401/403 to the recoverable reason "unauthorized", while the SEC
adapter's handler (`fetchJsonWithHeaders`) maps them to "http-401"/
"http-403" (also recoverable); the rest of the contract is shared by all
three: network failure → "network", non-JSON body → "parse", HTTP 429 →
"quota", any other status ≥400 → "http-{status}". -/
theorem http_status_contract (provider st msg : String) (b : FetchBody)
    (status : ℕ) :
    (b ≠ .malformed →
      fetchJson (.response 401 st b) provider =
        .error (createProviderError provider "授權受限（HTTP 401）。" true
          (some "unauthorized"))) ∧
    (b ≠ .malformed →
      fetchJson (.response 403 st b) provider =
        .error (createProviderError provider "授權受限（HTTP 403）。" true
          (some "unauthorized"))) ∧
    (b ≠ .malformed →
      fetchJsonWithHeaders (.response 401 st b) =
        .error (createProviderError "SEC" (("HTTP " ++ toString 401 ++ " " ++ st).trim)
          true (some "http-401"))) ∧
    (b ≠ .malformed →
      fetchJsonWithHeaders (.response 403 st b) =
        .error (createProviderError "SEC" (("HTTP " ++ toString 403 ++ " " ++ st).trim)
          true (some "http-403"))) ∧
    (fetchJson (.networkFailure msg) provider =
      .error (createProviderError provider ("網路錯誤：" ++ msg) true (some "network"))) ∧
    (fetchJsonWithHeaders (.networkFailure msg) =
      .error (createProviderError "SEC" ("網路錯誤：" ++ msg) true (some "network"))) ∧
    (fetchJson (.response status st .malformed) provider =
      .error (createProviderError provider "無法解析回應 JSON。" true (some "parse"))) ∧
    (fetchJsonWithHeaders (.response status st .malformed) =
      .error (createProviderError "SEC" "無法解析回應 JSON。" true (some "parse"))) ∧
    (b ≠ .malformed →
      fetchJson (.response 429 st b) provider =
        .error (createProviderError provider "API 配額已用盡（HTTP 429）。" true
          (some "quota"))) ∧
    (b ≠ .malformed →
      fetchJsonWithHeaders (.response 429 st b) =
        .error (createProviderError "SEC" "SEC API 配額限制 (HTTP 429)。" true
          (some "quota"))) ∧
    (b ≠ .malformed → 400 ≤ status → status ≠ 429 → status ≠ 401 → status ≠ 403 →
      fetchJson (.response status st b) provider =
        .error (createProviderError provider
          (("HTTP " ++ toString status ++ " " ++ st).trim) true
          (some ("http-" ++ toString status)))) ∧
    (b ≠ .malformed → 400 ≤ status → status ≠ 429 →
      fetchJsonWithHeaders (.response status st b) =
        .error (createProviderError "SEC"
          (("HTTP " ++ toString status ++ " " ++ st).trim) true
          (some ("http-" ++ toString status)))) := by
  refine ⟨?_, ?_, ?_, ?_, rfl, rfl, rfl, rfl, ?_, ?_, ?_, ?_⟩
  · intro hb
    cases b with
    | empty => rfl
    | jsonOk p => rfl
    | malformed => exact absurd rfl hb
  · intro hb
    cases b with
    | empty => rfl
    | jsonOk p => rfl
    | malformed => exact absurd rfl hb
  · intro hb
    cases b with
    | empty => rfl
    | jsonOk p => rfl
    | malformed => exact absurd rfl hb
  · intro hb
    cases b with
    | empty => rfl
    | jsonOk p => rfl
    | malformed => exact absurd rfl hb
  · intro hb
    cases b with
    | empty => rfl
    | jsonOk p => rfl
    | malformed => exact absurd rfl hb
  · intro hb
    cases b with
    | empty => rfl
    | jsonOk p => rfl
    | malformed => exact absurd rfl hb
  · intro hb h400 h429 h401 h403
    cases b with
    | empty => simp [fetchJson, h429, h401, h403, h400]
    | jsonOk p => simp [fetchJson, h429, h401, h403, h400]
    | malformed => exact absurd rfl hb
  · intro hb h400 h429
    cases b with
    | empty => simp [fetchJsonWithHeaders, h429, h400]
    | jsonOk p => simp [fetchJsonWithHeaders, h429, h400]
    | malformed => exact absurd rfl hb

/-- Witness for `http_status_contract`: a 500 response from FMP yields the
recoverable reason "http-500". -/
theorem http_status_contract_witness :
    (FetchBody.empty ≠ FetchBody.malformed) ∧ (400 ≤ 500) ∧ (500 ≠ 429) ∧
    (500 ≠ 401) ∧ (500 ≠ 403) ∧
    fetchJson (.response 500 "" .empty) "FMP" =
      .error (createProviderError "FMP" (("HTTP " ++ toString 500 ++ " " ++ "").trim)
        true (some ("http-" ++ toString 500))) := by
  obtain ⟨-, -, -, -, -, -, -, -, -, -, h11, -⟩ :=
    http_status_contract "FMP" "" "x" .empty 500
  exact ⟨by decide, by decide, by decide, by decide, by decide,
    h11 (by decide) (by decide) (by decide) (by decide) (by decide)⟩
